import Mathlib

/-!
Shallow embedding of `rivia-edit` (src/src/lib.rs) — regex-driven file edits:
`extract` / `extract_rx`, `extract_all` / `extract_all_rx`,
`insert_lines` / `insert_lines_rx`, and the spec-described `replace_all`.

The regex engine is an external dependency of the crate (the `regex` crate);
it is modelled abstractly as a structure of matching functions, exactly the
operations the source consumes: `captures` (first match with capture groups),
`captures_iter` (all non-overlapping matches), `is_match`, and — for the
Replacer — `replace_all` template substitution.  File I/O through `rivia_vfs`
is modelled by passing the file content (whole text, or a list of
terminator-free lines) explicitly; the write step is the returned value.
-/

namespace RiviaEdit

/-- One match of a pattern: `groups[0]` is the whole match, `groups[i]` for
`i ≥ 1` the `i`-th capture group; `none` marks a group that did not
participate in the match.  Models the `regex` crate's `Captures`. -/
structure Captures where
  groups : List (Option String)
deriving DecidableEq, Repr

/-- Models `caps.get(i)` of the `regex` crate: `none` when the group index is out of
range or the group did not participate. -/
def Captures.get (c : Captures) (i : Nat) : Option String :=
  match c.groups[i]? with
  | some (some s) => some s
  | _ => none

/-- A compiled pattern, modelled by the matching operations the source
consumes from the `regex` crate. -/
structure Regex where
  /-- Models `rx.captures(data)`: capture groups of the first match, if any. -/
  captures : String → Option Captures
  /-- Models `rx.captures_iter(data)`: every non-overlapping match, in document
  order, left to right. -/
  capturesIter : String → List Captures
  /-- Models `rx.is_match(line)`. -/
  isMatch : String → Bool
  /-- Models `rx.replace_all(content, value)`: all matches substituted by the
  (backreference-expanded) value. -/
  replaceAll : String → String → String

/-- Since `Regex::new` may fail on a malformed expression, a compiler is a
partial map from expressions to compiled patterns. -/
def Compiler : Type := String → Option Regex

/-- The error values the source actually constructs (`FileError` variants
used in src/src/lib.rs).  The spec's `InvalidPattern`/`ExtractionFailed`
both correspond to `FailedToExtractString` here. -/
inductive FileError where
  | failedToExtractString
  | insertLocationNotFound
deriving DecidableEq, Repr

/-- Embeds `extract_rx(path, rx)` (src/src/lib.rs:63-69) with the file's content
passed in place of the `vfs::read_all` call: first match's capture group 1,
else `FailedToExtractString`. -/
def extract_rx (data : String) (rx : Regex) : Except FileError String :=
  match rx.captures data with
  | none => .error .failedToExtractString
  | some caps =>
    match caps.get 1 with
    | none => .error .failedToExtractString
    | some value => .ok value

/-- Embeds `extract(path, rx)` (src/src/lib.rs:44-47): compile the expression —
mapping a compile failure to `FailedToExtractString` — then `extract_rx`. -/
def extract (compile : Compiler) (data : String) (expr : String) : Except FileError String :=
  match compile expr with
  | none => .error .failedToExtractString
  | some rx => extract_rx data rx

/-- Embeds `extract_all_rx(path, rx)` (src/src/lib.rs:105-113): for every match of
`captures_iter`, append each participating group (`cap.iter()` yields all
groups, group 0 first; `filter_map` drops the non-participating ones). -/
def extract_all_rx (data : String) (rx : Regex) : Except FileError (List String) :=
  .ok ((rx.capturesIter data).flatMap (fun cap => cap.groups.filterMap id))

/-- Embeds `extract_all(path, rx)` (src/src/lib.rs:85-88): compile, then
`extract_all_rx`. -/
def extract_all (compile : Compiler) (data : String) (expr : String) :
    Except FileError (List String) :=
  match compile expr with
  | none => .error .failedToExtractString
  | some rx => extract_all_rx data rx

/-- Outcome of `insert_lines_rx`: `ok newLines` means validation succeeded and
`vfs::write_lines` was performed with exactly `newLines`; `err` means the
function returned early with an error (no write); `panic` models Rust's
`Vec::insert` aborting on an index greater than the vector length (no write
either). -/
inductive InsertResult where
  | ok (newLines : List String)
  | err (e : FileError)
  | panic
deriving DecidableEq, Repr

/-- Rust's `Vec::insert(i, x)` for `i ≤ len`: shift the suffix right. -/
def vecInsert (l : List String) (i : Nat) (x : String) : List String :=
  l.take i ++ x :: l.drop i

/-- The insertion loop of src/src/lib.rs:177-180: one `Vec::insert` per given
line, advancing the index.  `Vec::insert` panics when the index exceeds the
current length, which happens exactly when the initial index does. -/
def insertLoop (flines : List String) (i : Nat) (lines : List String) :
    Option (List String) :=
  match lines with
  | [] => some flines
  | x :: rest =>
    if i ≤ flines.length then insertLoop (vecInsert flines i x) (i + 1) rest
    else none

/-- The location scan of src/src/lib.rs:160-168: index of the first line the
pattern matches (the `loc = -1` sentinel becomes `none`). -/
def findLoc (rx : Regex) : List String → Option Nat
  | [] => none
  | line :: rest =>
    if rx.isMatch line then some 0 else (findLoc rx rest).map (· + 1)

/-- Embeds `insert_lines_rx(path, lines, rx, offset)` (src/src/lib.rs:156-186) with
the file's lines passed in place of `vfs::read_lines`: find the first
matching line, fail with `InsertLocationNotFound` when there is none or when
`loc + offset < 0`, then splice the given lines in starting at
`(loc + offset) as usize` and write the result out. -/
def insert_lines_rx (flines : List String) (lines : List String) (rx : Regex)
    (offset : Int) : InsertResult :=
  match findLoc rx flines with
  | none => .err .insertLocationNotFound
  | some loc =>
    if (loc : Int) + offset < 0 then .err .insertLocationNotFound
    else
      match insertLoop flines ((loc : Int) + offset).toNat lines with
      | none => .panic
      | some newLines => .ok newLines

/-- Embeds `insert_lines(path, lines, rx, offset)` (src/src/lib.rs:132-136):
compile — a failure mapping to `FailedToExtractString` — then
`insert_lines_rx`. -/
def insert_lines (compile : Compiler) (flines : List String)
    (lines : List String) (expr : String) (offset : Int) : InsertResult :=
  match compile expr with
  | none => .err .failedToExtractString
  | some rx => insert_lines_rx flines lines rx offset

/-- The file's content after a call to `insert_lines_rx`: only the `ok`
branch reaches `vfs::write_lines`; an error return or a panic leaves the
file as it was. -/
def fileAfterInsert (flines : List String) (lines : List String) (rx : Regex)
    (offset : Int) : List String :=
  match insert_lines_rx flines lines rx offset with
  | .ok newLines => newLines
  | _ => flines

/-- Modelled from the spec: `replace_all` is absent from the examined source
(the Replacer exists only in spec §4.4 and in source comments).  Per the
spec it reads the full content, computes the fully substituted text via the
engine, and writes back only if the computed text differs from the original
(content-equality short-circuit).  The returned flag records whether a
write was performed; the string is the resulting file content. -/
def replace_all (rx : Regex) (value : String) (content : String) :
    Bool × String :=
  let newText := rx.replaceAll content value
  if newText = content then (false, content) else (true, newText)

/-- Coherence of the abstract engine: a pattern with zero matches in some
content substitutes nothing there, for every replacement value. -/
def Regex.ZeroMatchId (rx : Regex) : Prop :=
  ∀ value content, rx.capturesIter content = [] →
    rx.replaceAll content value = content

/-! Concrete engine instances, realizing behaviors every real regex engine
exhibits; used to evaluate the embedding at concrete inputs. -/

/-- Behavior of a pattern that matches every line (e.g. the empty pattern
`""` used in the repository's own offset-out-of-range test). -/
def rxAll : Regex where
  captures := fun _ => none
  capturesIter := fun _ => []
  isMatch := fun _ => true
  replaceAll := fun content _ => content

/-- Behavior of a valid pattern that matches nothing in the supplied
content (e.g. `"zzz"` against `"data"`). -/
def rxNone : Regex where
  captures := fun _ => none
  capturesIter := fun _ => []
  isMatch := fun _ => false
  replaceAll := fun content _ => content

/-- Behavior of the literal pattern `"foo3"` as used in the repository's
insertion tests: a line matches exactly when it contains `foo3`. -/
def rxFoo3 : Regex where
  captures := fun _ => none
  capturesIter := fun _ => []
  isMatch := fun line => line == "foo3"
  replaceAll := fun content _ => content

/-- Behavior of the pattern `(a)b` on the content `ab`: one match whose
group 0 spans `ab` and whose single subgroup captures `a`. -/
def rxGroup : Regex where
  captures := fun data =>
    if data = "ab" then some ⟨[some "ab", some "a"]⟩ else none
  capturesIter := fun data =>
    if data = "ab" then [⟨[some "ab", some "a"]⟩] else []
  isMatch := fun data => data == "ab"
  replaceAll := fun content _ => content

/-- Behavior of the crate's own doc-test pattern
`'([^']+)'\s+\((\d{4})\)` on the movie line: group 1 captures the title,
group 2 the year. -/
def rxKane : Regex where
  captures := fun _ =>
    some ⟨[some "'Citizen Kane' (1941)", some "Citizen Kane", some "1941"]⟩
  capturesIter := fun _ =>
    [⟨[some "'Citizen Kane' (1941)", some "Citizen Kane", some "1941"]⟩]
  isMatch := fun _ => true
  replaceAll := fun content _ => content

/-- A compiler restricted to inputs on which `Regex::new` fails (e.g. the
expression `"["` from the repository's own error-case test). -/
def compileNone : Compiler := fun _ => none

/-! ### Helper lemmas about the insertion loop and the location scan -/

theorem vecInsert_length (l : List String) (i : Nat) (x : String)
    (h : i ≤ l.length) : (vecInsert l i x).length = l.length + 1 := by
  simp only [vecInsert, List.length_append, List.length_take, List.length_cons,
    List.length_drop]
  omega

theorem vecInsert_take (l : List String) (i : Nat) (x : String)
    (h : i ≤ l.length) : (vecInsert l i x).take (i + 1) = l.take i ++ [x] := by
  rw [vecInsert, List.take_append_eq_append_take,
    List.take_of_length_le (by simp only [List.length_take]; omega)]
  congr 1
  rw [List.length_take, Nat.min_eq_left h]
  simp

theorem vecInsert_drop (l : List String) (i : Nat) (x : String)
    (h : i ≤ l.length) : (vecInsert l i x).drop (i + 1) = l.drop i := by
  rw [vecInsert, List.drop_append_eq_append_drop,
    List.drop_of_length_le (by simp only [List.length_take]; omega)]
  rw [List.length_take, Nat.min_eq_left h]
  simp

/-- Sequential `Vec::insert` calls starting at a valid index splice the whole
block in contiguously. -/
theorem insertLoop_eq (lines : List String) :
    ∀ (l : List String) (i : Nat), i ≤ l.length →
      insertLoop l i lines = some (l.take i ++ lines ++ l.drop i) := by
  induction lines with
  | nil =>
    intro l i h
    simp [insertLoop]
  | cons x rest ih =>
    intro l i h
    rw [insertLoop, if_pos h,
      ih (vecInsert l i x) (i + 1) (by rw [vecInsert_length l i x h]; omega),
      vecInsert_take l i x h, vecInsert_drop l i x h]
    simp

/-- The first `Vec::insert` call with an out-of-bounds index panics. -/
theorem insertLoop_panic (l : List String) (i : Nat) (x : String)
    (rest : List String) (h : l.length < i) :
    insertLoop l i (x :: rest) = none := by
  rw [insertLoop, if_neg (by omega)]

/-- When no line matches, the scan leaves the sentinel in place. -/
theorem findLoc_eq_none (rx : Regex) :
    ∀ l : List String, (∀ line ∈ l, rx.isMatch line = false) →
      findLoc rx l = none := by
  intro l
  induction l with
  | nil => intro _; rfl
  | cons line rest ih =>
    intro h
    rw [findLoc, h line (by simp)]
    simp [ih fun l2 hl => h l2 (by simp [hl])]

/-- The scan returns the index of the first matching line. -/
theorem findLoc_append (rx : Regex) (pre post : List String) (anchor : String)
    (hanchor : rx.isMatch anchor = true)
    (hpre : ∀ line ∈ pre, rx.isMatch line = false) :
    findLoc rx (pre ++ anchor :: post) = some pre.length := by
  induction pre with
  | nil => simp [findLoc, hanchor]
  | cons p rest ih =>
    rw [List.cons_append, findLoc, hpre p (by simp)]
    simp [ih fun l2 hl => hpre l2 (by simp [hl])]

/-- Walking the group indices in ascending order and keeping the
participating ones is the same as filtering the group list itself. -/
theorem captures_get_range (l : List (Option String)) :
    (List.range l.length).filterMap (fun i => Captures.get ⟨l⟩ i) =
      l.filterMap id := by
  induction l with
  | nil => rfl
  | cons a rest ih =>
    rw [List.length_cons, List.range_succ_eq_map, List.filterMap_cons,
      List.filterMap_map]
    have h2 : ((fun i => Captures.get ⟨a :: rest⟩ i) ∘ fun i => i + 1) =
        fun i => Captures.get ⟨rest⟩ i := by
      funext i
      simp [Captures.get]
    rw [h2, ih]
    cases a with
    | none => simp [Captures.get]
    | some s => simp [Captures.get]

/-! ### Claim theorems -/

/-- C5: for every content and compiled pattern, `extract_rx` returns a value
exactly when the first match exists and its capture group 1 participated, and
then returns exactly the text of group 1; it fails with
`FailedToExtractString` (the error the spec calls `ExtractionFailed`) exactly
when there is no match or group 1 is absent from the first match. -/
theorem extract_rx_group_one_iff (data : String) (rx : Regex) :
    (∀ s, extract_rx data rx = .ok s ↔
      ∃ caps, rx.captures data = some caps ∧ caps.get 1 = some s) ∧
    (extract_rx data rx = .error .failedToExtractString ↔
      rx.captures data = none ∨
        ∃ caps, rx.captures data = some caps ∧ caps.get 1 = none) := by
  cases hc : rx.captures data with
  | none =>
    exact ⟨fun s => by simp [extract_rx, hc], by simp [extract_rx, hc]⟩
  | some caps =>
    cases hg : caps.get 1 with
    | none =>
      exact ⟨fun s => by simp [extract_rx, hc, hg], by simp [extract_rx, hc, hg]⟩
    | some v =>
      exact ⟨fun s => by simp [extract_rx, hc, hg], by simp [extract_rx, hc, hg]⟩

/-- Witness for C5, replaying the crate's own doc test: the movie pattern on
the movie line yields the text of capture group 1. -/
theorem extract_rx_group_one_iff_witness :
    extract_rx "Not my favorite movie: 'Citizen Kane' (1941)." rxKane =
      .ok "Citizen Kane" :=
  ((extract_rx_group_one_iff "Not my favorite movie: 'Citizen Kane' (1941)."
      rxKane).1 "Citizen Kane").mpr
    ⟨⟨[some "'Citizen Kane' (1941)", some "Citizen Kane", some "1941"]⟩,
      rfl, rfl⟩

/-- C3 counterexample: the claim says the error for a non-compiling
expression differs from the error for a valid pattern with no match; in the
source both paths construct the very same `FileError::FailedToExtractString`,
as at the concrete expression `[` (which does not compile) versus a valid
never-matching pattern. -/
theorem extract_invalid_pattern_error_not_distinct :
    extract compileNone "data" "[" = .error .failedToExtractString ∧
    extract_rx "data" rxNone = .error .failedToExtractString :=
  ⟨rfl, rfl⟩

/-- C3 amended: when the supplied expression does not compile, `extract`
fails with `FailedToExtractString` — the same single error value produced
when a valid pattern fails to match; the source defines no separate
`InvalidPattern` error for `extract`. -/
theorem extract_invalid_pattern_same_error
    (compile : Compiler) (data expr d2 : String) (rx : Regex)
    (hcompile : compile expr = none) (hnomatch : rx.captures d2 = none) :
    extract compile data expr = .error .failedToExtractString ∧
    extract compile data expr = extract_rx d2 rx := by
  constructor
  · simp [extract, hcompile]
  · simp [extract, hcompile, extract_rx, hnomatch]

/-- Witness for the amended C3 at the repository's own invalid expression. -/
theorem extract_invalid_pattern_same_error_witness :
    extract compileNone "data" "[" = .error .failedToExtractString ∧
    extract compileNone "data" "[" = extract_rx "data" rxNone :=
  extract_invalid_pattern_same_error compileNone "data" "[" "data" rxNone
    rfl rfl

/-- C9: for every content and compiled pattern with zero matches,
`extract_all_rx` succeeds with the empty sequence rather than an error. -/
theorem extract_all_rx_zero_matches_empty (data : String) (rx : Regex)
    (hzero : rx.capturesIter data = []) :
    extract_all_rx data rx = .ok [] := by
  simp [extract_all_rx, hzero]

/-- Witness for C9 at a concrete never-matching pattern. -/
theorem extract_all_rx_zero_matches_empty_witness :
    extract_all_rx "abc" rxNone = .ok [] :=
  extract_all_rx_zero_matches_empty "abc" rxNone rfl

/-- C10: on a file that reads as zero lines, `insert_lines_rx` always fails
with `InsertLocationNotFound` — whatever the pattern (even one matching the
empty string), offset and new lines — and the file is left unmodified. -/
theorem insert_lines_rx_empty_file (rx : Regex) (lines : List String)
    (offset : Int) :
    insert_lines_rx [] lines rx offset = .err .insertLocationNotFound ∧
    fileAfterInsert [] lines rx offset = [] :=
  ⟨rfl, rfl⟩

/-- C8 (Replacer modelled from the spec, §4.4): when the pattern has zero
matches in the content, the substituted text equals the original, so the
content-equality short-circuit suppresses the write and the operation
succeeds leaving the file unchanged. -/
theorem replace_all_zero_matches_no_write (rx : Regex) (value content : String)
    (hcoh : rx.ZeroMatchId) (hzero : rx.capturesIter content = []) :
    replace_all rx value content = (false, content) := by
  simp only [replace_all, hcoh value content hzero]
  simp

/-- Witness for C8 at a concrete never-matching pattern. -/
theorem replace_all_zero_matches_no_write_witness :
    replace_all rxNone "value" "content" = (false, "content") :=
  replace_all_zero_matches_no_write rxNone "value" "content"
    (fun _ _ _ => rfl) rfl

/-- C4: when the file decomposes as non-matching lines `pre`, a first
matching `anchor` line and a remainder `post`, `insert_lines_rx` with offset
0 succeeds writing the block immediately before the anchor, and with offset
1 immediately after it; the block is contiguous and in the order given, and
the pre-existing lines keep their relative order. -/
theorem insert_lines_rx_offset_zero_one
    (pre post lines : List String) (anchor : String) (rx : Regex)
    (hanchor : rx.isMatch anchor = true)
    (hpre : ∀ line ∈ pre, rx.isMatch line = false) :
    insert_lines_rx (pre ++ anchor :: post) lines rx 0 =
      .ok (pre ++ lines ++ anchor :: post) ∧
    insert_lines_rx (pre ++ anchor :: post) lines rx 1 =
      .ok (pre ++ anchor :: (lines ++ post)) := by
  have hfind := findLoc_append rx pre post anchor hanchor hpre
  have hlen : pre.length ≤ (pre ++ anchor :: post).length := by
    simp only [List.length_append, List.length_cons]
    omega
  constructor
  · simp only [insert_lines_rx, hfind]
    rw [if_neg (by omega), show ((pre.length : Int) + 0).toNat = pre.length by omega,
      insertLoop_eq lines _ _ hlen, List.take_left, List.drop_left]
  · simp only [insert_lines_rx, hfind]
    rw [if_neg (by omega),
      show ((pre.length : Int) + 1).toNat = pre.length + 1 by omega,
      insertLoop_eq lines _ _ (by simp only [List.length_append, List.length_cons]; omega)]
    rw [List.take_append_eq_append_take, List.drop_append_eq_append_drop,
      List.take_of_length_le (by omega), List.drop_of_length_le (by omega)]
    simp

/-- Witness for C4 replaying the repository's `test_insert_lines_multi_before`
test: inserting two lines before the only line. -/
theorem insert_lines_rx_offset_zero_one_witness :
    insert_lines_rx ["foo3"] ["foo1", "foo2"] rxFoo3 0 =
      .ok ["foo1", "foo2", "foo3"] := by
  have h := (insert_lines_rx_offset_zero_one [] [] ["foo1", "foo2"] "foo3"
    rxFoo3 rfl (by simp)).1
  simpa using h

/-- C6: `insert_lines_rx` fails with `InsertLocationNotFound` when no line
matches the pattern, or when the anchor exists but `anchor_index + offset` is
negative; in both cases the write step is never reached and the file is left
unchanged. -/
theorem insert_lines_rx_location_not_found
    (flines lines : List String) (rx : Regex) (offset : Int)
    (h : (∀ line ∈ flines, rx.isMatch line = false) ∨
      ∃ pre anchor post, flines = pre ++ anchor :: post ∧
        (∀ line ∈ pre, rx.isMatch line = false) ∧
        rx.isMatch anchor = true ∧ (pre.length : Int) + offset < 0) :
    insert_lines_rx flines lines rx offset = .err .insertLocationNotFound ∧
    fileAfterInsert flines lines rx offset = flines := by
  have hmain : insert_lines_rx flines lines rx offset =
      .err .insertLocationNotFound := by
    rcases h with hnone | ⟨pre, anchor, post, heq, hpre, hanchor, hneg⟩
    · simp only [insert_lines_rx, findLoc_eq_none rx flines hnone]
    · subst heq
      simp only [insert_lines_rx, findLoc_append rx pre post anchor hanchor hpre]
      rw [if_pos hneg]
  exact ⟨hmain, by simp only [fileAfterInsert, hmain]⟩

/-- Witness for C6 replaying the repository's offset-out-of-range error test:
an everywhere-matching pattern with offset `-2` on a one-line file. -/
theorem insert_lines_rx_location_not_found_witness :
    insert_lines_rx ["foo"] ["x"] rxAll (-2) = .err .insertLocationNotFound ∧
    fileAfterInsert ["foo"] ["x"] rxAll (-2) = ["foo"] :=
  insert_lines_rx_location_not_found ["foo"] ["x"] rxAll (-2)
    (.inr ⟨[], "foo", [], rfl, by simp, rfl, by decide⟩)

/-- C7: `insert_lines_rx` performs no no-op detection: whenever validation
succeeds the function reaches the single `write_lines` call with the full
modified sequence (`ok` here records exactly that write), even when that
sequence is identical to the original content — as with an empty block,
where the file is rewritten with its own content. -/
theorem insert_lines_rx_always_writes
    (flines lines : List String) (rx : Regex) (offset : Int) (loc : Nat)
    (hloc : findLoc rx flines = some loc)
    (hpos : 0 ≤ (loc : Int) + offset)
    (hub : ((loc : Int) + offset).toNat ≤ flines.length) :
    ∃ newLines, insert_lines_rx flines lines rx offset = .ok newLines ∧
      (lines = [] → newLines = flines) := by
  refine ⟨flines.take (((loc : Int) + offset).toNat) ++ lines ++
    flines.drop (((loc : Int) + offset).toNat), ?_, ?_⟩
  · simp only [insert_lines_rx, hloc]
    rw [if_neg (by omega), insertLoop_eq lines flines _ hub]
  · intro h
    subst h
    simp

/-- Witness for C7: a successful no-op insertion still writes the file. -/
theorem insert_lines_rx_always_writes_witness :
    insert_lines_rx ["a"] [] rxAll 0 = .ok ["a"] := by
  obtain ⟨nl, h1, h2⟩ :=
    insert_lines_rx_always_writes ["a"] [] rxAll 0 0 rfl (by decide) (by decide)
  rw [h2 rfl] at h1
  exact h1

/-- C1 counterexample: the claim says a target past the line count still
succeeds with the lines placed at/after the end; on the concrete one-line
file with anchor index 0 and offset 2 the computed index 2 exceeds the
length 1, so the very first `Vec::insert` hits an out-of-bounds index and
the call panics instead of succeeding. -/
theorem insert_lines_rx_overlarge_target_panics :
    insert_lines_rx ["a"] ["x"] rxAll 2 = .panic ∧
      ¬ insert_lines_rx ["a"] ["x"] rxAll 2 = .ok ["a", "x"] := by
  constructor
  · rfl
  · intro h
    rw [show insert_lines_rx ["a"] ["x"] rxAll 2 = InsertResult.panic from rfl]
      at h
    exact InsertResult.noConfusion h

/-- C1 amended: `insert_lines_rx` indeed performs no explicit upper-bound
check on `target = anchor_index + offset`; when `target` is at most the line
count — in particular when it equals it — the call succeeds and the splice
inserts at/after the end, but when `target` strictly exceeds the line count
and the block is non-empty the underlying `Vec::insert` panics, so the
call does not succeed. -/
theorem insert_lines_rx_no_upper_bound_check
    (flines lines : List String) (rx : Regex) (offset : Int) (loc : Nat)
    (hloc : findLoc rx flines = some loc)
    (hpos : 0 ≤ (loc : Int) + offset) :
    (((loc : Int) + offset).toNat ≤ flines.length →
      insert_lines_rx flines lines rx offset =
        .ok (flines.take (((loc : Int) + offset).toNat) ++ lines ++
          flines.drop (((loc : Int) + offset).toNat))) ∧
    (flines.length < ((loc : Int) + offset).toNat → lines ≠ [] →
      insert_lines_rx flines lines rx offset = .panic) := by
  constructor
  · intro hub
    simp only [insert_lines_rx, hloc]
    rw [if_neg (by omega), insertLoop_eq lines flines _ hub]
  · intro hover hne
    cases lines with
    | nil => exact absurd rfl hne
    | cons x rest =>
      simp only [insert_lines_rx, hloc]
      rw [if_neg (by omega), insertLoop_panic flines _ x rest hover]

/-- Witness for the amended C1: target equal to the line count appends at
the end of the file. -/
theorem insert_lines_rx_no_upper_bound_check_witness :
    insert_lines_rx ["a"] ["x"] rxAll 1 = .ok ["a", "x"] := by
  have h := (insert_lines_rx_no_upper_bound_check ["a"] ["x"] rxAll 1 0
    rfl (by decide)).1 (by decide)
  simpa using h

/-- C2 counterexample: the claim says that for a pattern with subgroups only
the participating subgroups (not group 0) are appended; for the pattern
`(a)b` on the content `ab` the source's `cap.iter()` starts at group 0,
which always participates, so the whole match `ab` is appended before the
subgroup capture `a`. -/
theorem extract_all_rx_includes_group_zero :
    extract_all_rx "ab" rxGroup = .ok ["ab", "a"] ∧
      ¬ extract_all_rx "ab" rxGroup = .ok ["a"] := by
  constructor
  · rfl
  · intro h
    rw [show extract_all_rx "ab" rxGroup = Except.ok ["ab", "a"] from rfl] at h
    have h2 : ["ab", "a"] = ["a"] := by injection h
    exact absurd h2 (by decide)

/-- C2 amended: for every content and compiled pattern, `extract_all_rx`
appends, for each match in document order, the groups with indices
0, 1, 2, … in ascending order, keeping exactly those that participated —
group 0 included whenever it participates (for a real engine, in every
match), regardless of whether the pattern has subgroups — and skipping
non-participating groups rather than representing them as empty strings. -/
theorem extract_all_rx_participating_groups (data : String) (rx : Regex) :
    extract_all_rx data rx =
      .ok ((rx.capturesIter data).flatMap
        (fun cap => (List.range cap.groups.length).filterMap cap.get)) := by
  have hfun : (fun cap : Captures => cap.groups.filterMap id) =
      fun cap : Captures =>
        (List.range cap.groups.length).filterMap cap.get := by
    funext cap
    cases cap with
    | mk groups => exact (captures_get_range groups).symm
  simp only [extract_all_rx, hfun]

end RiviaEdit
